import Mathlib

/-!
Verification development for the Stardew Valley game extension
(`vortex-game-stardewvalley-ts`): a shallow embedding of its
dependency-resolution subsystem, and theorems about the embedded code.

Embedded source files:
* the mod-toggled reconciler and its `mapDependencies` resolver;
* `SMAPI_API.ts` (`sendQuery`, `fetchModInfo`, `normaliseDependencies`);
* the stored-manifest view used by `SMAPIManifestClass` (root-folder.ts)
  and `getManifestValue` (common.ts).

JavaScript-specific behaviour (truthiness, `===`, aliasing of the stored
`Dependencies` array) is made explicit in the embedding.  The npm `semver`
library functions the resolver calls (`coerce`, `satisfies`) are modelled
from the library's documented range grammar.
-/

namespace SDV

/-- The fixed game id, `GAME_ID` in `common.ts`. -/
def GAME_ID : String := "stardewvalley"

/-- A JavaScript value as far as this code inspects one: `undefined`,
a boolean, or a string.  Used for fields whose JS type is not pinned down
(notably `isRequired`, which manifest authors may write as a string). -/
inductive JSVal where
  | undef : JSVal
  | bool : Bool → JSVal
  | str : String → JSVal
deriving DecidableEq, Repr

/-- JavaScript truthiness for the values of `JSVal`:
`undefined` and `false` and `""` are falsy, all else truthy. -/
def JSVal.truthy : JSVal → Bool
  | .undef => false
  | .bool b => b
  | .str s => s ≠ ""

/-- JavaScript `v || false`: the left operand when truthy, else `false`. -/
def JSVal.orFalse (v : JSVal) : JSVal := if v.truthy then v else .bool false

/-- Truthiness of an optional string field (`undefined` and `""` falsy). -/
def optStrTruthy : Option String → Bool
  | none => false
  | some s => s ≠ ""

/-- A dependency declaration as stored on a SMAPI manifest:
`{ UniqueID, isRequired?, MinimumVersion? }`.  `UniqueID` is optional
because raw manifests may omit it. -/
structure Dep where
  UniqueID : Option String := none
  isRequired : JSVal := .undef
  MinimumVersion : Option String := none
deriving DecidableEq, Repr

/-- The `ContentPackFor` value of a manifest (`{ UniqueID }`). -/
structure ContentPackRef where
  UniqueID : Option String := none
deriving DecidableEq, Repr

/-- The stored SMAPI manifest attribute as the resolver reads it:
the `Version` property (exact key, as accessed by
`smapiManifests[depName].Version`), the `Dependencies` array (present or
absent — presence matters because the reconciler's `push` aliases it),
and `ContentPackFor`. -/
structure StoredManifest where
  Version : Option String := none
  Dependencies : Option (List Dep) := none
  ContentPackFor : Option ContentPackRef := none
deriving DecidableEq, Repr

/-- A catalog entry of the SMAPI web API response, restricted to the
fields this code reads: `id` and `metadata?.main?.url`. -/
structure CatalogEntry where
  id : String
  mainUrl : Option String := none
deriving DecidableEq, Repr

/-- A mod-rule reference.  The source writes different field subsets in
different branches (`id`/`versionMatch`/`description` for local rules,
`idHint`/`description`/`instructions` for remote ones,
`version`/`fileExpression` for unresolved ones); absent fields are
`none`, matching the `undefined` the reconciler's diff compares with. -/
structure ModReference where
  id : Option String := none
  idHint : Option String := none
  description : Option String := none
  versionMatch : Option String := none
  version : Option String := none
  fileExpression : Option String := none
  instructions : Option String := none
deriving DecidableEq, Repr

/-- A download hint attached to remote rules. -/
structure DownloadHint where
  mode : String
  url : String
deriving DecidableEq, Repr

/-- The `extra` payload of remote rules (`{ required }`). -/
structure RuleExtra where
  required : JSVal
deriving DecidableEq, Repr

/-- A mod rule as emitted by the resolver (`IModRulePlusType`). -/
structure ModRule where
  type : String
  reference : ModReference
  downloadHint : Option DownloadHint := none
  extra : Option RuleExtra := none
deriving DecidableEq, Repr

/-- One entry of a mod's `attributes.modData` array, as read by
`fetchModInfo`: `{ id, version }`. -/
structure ModDataEntry where
  id : String
  version : Option String := none
deriving DecidableEq, Repr

/-- An installed mod as this subsystem reads it: the host id, the
`attributes.smapiManifests` mapping (an insertion-ordered association
list keyed by manifest id), the stored rules, and the attributes
`fetchModInfo` consults (`modData`, `modId`, `source`). -/
structure Mod where
  id : String
  smapiManifests : Option (List (String × StoredManifest)) := none
  rules : List ModRule := []
  modData : Option (List ModDataEntry) := none
  modId : Option String := none
  source : Option String := none
deriving DecidableEq, Repr

/-! ### Model of the npm `semver` library calls

The resolver calls `semver.satisfies(version, template)` where the
template string is built as `coerce(minimumVersion)` followed by a `"^"`
character.  Per the library's documented grammar a range is a
space-separated list of comparators, each an optional operator
(`=`, `<`, `<=`, `>`, `>=`) or a caret/tilde written as a PREFIX,
followed by a version; `satisfies` returns `false` whenever the range or
the version fails to parse. -/

/-- A parsed three-component version. -/
structure SemVer3 where
  major : Nat
  minor : Nat
  patch : Nat
deriving DecidableEq, Repr

/-- The decimal value of a digit run. -/
def digitsToNat (l : List Char) : Nat :=
  l.foldl (fun n c => 10 * n + (c.toNat - 48)) 0

/-- Split a character list on a separator character. -/
def splitOnChar (sep : Char) : List Char → List (List Char)
  | [] => [[]]
  | c :: rest =>
    let r := splitOnChar sep rest
    if c == sep then [] :: r
    else
      match r with
      | [] => [[c]]
      | g :: gs => (c :: g) :: gs

/-- Parse a strict `major.minor.patch` numeric version core; any other
shape (in particular a trailing non-digit such as `^`) fails. -/
def parseVerCoreL (l : List Char) : Option SemVer3 :=
  match splitOnChar '.' l with
  | [a, b, c] =>
    if a ≠ [] ∧ b ≠ [] ∧ c ≠ [] ∧ (a ++ b ++ c).all (·.isDigit) then
      some ⟨digitsToNat a, digitsToNat b, digitsToNat c⟩
    else none
  | _ => none

/-- Version-core parsing on strings. -/
def parseVerCore (s : String) : Option SemVer3 := parseVerCoreL s.toList

/-- Comparison of parsed versions. -/
def verLe (v w : SemVer3) : Bool :=
  v.major < w.major ∨ (v.major = w.major ∧
    (v.minor < w.minor ∨ (v.minor = w.minor ∧ v.patch ≤ w.patch)))

/-- The comparator operators of the semver range grammar. -/
inductive SemverOp where
  | eq | lt | le | gt | ge | caret | tilde
deriving DecidableEq, Repr

/-- One parsed comparator: an operator applied to a version. -/
structure SemverComparator where
  op : SemverOp
  ver : SemVer3
deriving DecidableEq, Repr

/-- Parse one comparator: an optional operator, or a caret/tilde prefix,
then a version core.  Anything else — such as a caret written AFTER the
version — is invalid. -/
def parseComparator (s : String) : Option SemverComparator :=
  match s.toList with
  | '>' :: '=' :: rest => (parseVerCoreL rest).map (⟨.ge, ·⟩)
  | '<' :: '=' :: rest => (parseVerCoreL rest).map (⟨.le, ·⟩)
  | '>' :: rest => (parseVerCoreL rest).map (⟨.gt, ·⟩)
  | '<' :: rest => (parseVerCoreL rest).map (⟨.lt, ·⟩)
  | '^' :: rest => (parseVerCoreL rest).map (⟨.caret, ·⟩)
  | '~' :: rest => (parseVerCoreL rest).map (⟨.tilde, ·⟩)
  | '=' :: rest => (parseVerCoreL rest).map (⟨.eq, ·⟩)
  | l => (parseVerCoreL l).map (⟨.eq, ·⟩)

/-- Does version `v` satisfy one comparator, per the semver docs
(caret: compatible-with; tilde: same minor unless major 0). -/
def satComparator (v : SemVer3) (c : SemverComparator) : Bool :=
  match c.op with
  | .eq => v = c.ver
  | .lt => verLe v c.ver ∧ v ≠ c.ver
  | .le => verLe v c.ver
  | .gt => verLe c.ver v ∧ v ≠ c.ver
  | .ge => verLe c.ver v
  | .caret =>
    verLe c.ver v ∧
      (if c.ver.major ≠ 0 then v.major = c.ver.major
       else if c.ver.minor ≠ 0 then v.major = 0 ∧ v.minor = c.ver.minor
       else v = c.ver)
  | .tilde =>
    verLe c.ver v ∧ v.major = c.ver.major ∧ v.minor = c.ver.minor

/-- Model of `semver.satisfies(version, range)`: both sides are parsed;
an unparsable version or range yields `false`; otherwise the version
must satisfy every comparator of the range. -/
def semverSatisfies (version range : String) : Bool :=
  match parseVerCore version with
  | none => false
  | some v =>
    let comps := (splitOnChar ' ' range.toList).map
      (fun part => parseComparator (String.mk part))
    if comps.any (·.isNone) then false
    else (comps.filterMap id).all (satComparator v)

/-- Model of `semver.coerce(s)`: the first digit run becomes the major
component, optional `.digits` groups the minor and patch (defaulting to
`0`); a string with no digit coerces to nothing (JS `null`). -/
def semverCoerce (s : String) : Option String :=
  match s.toList.dropWhile (fun c => ¬ c.isDigit) with
  | [] => none
  | c :: rest =>
    let maj := (c :: rest).takeWhile (fun (ch : Char) => ch.isDigit)
    let rest1 := (c :: rest).dropWhile (fun (ch : Char) => ch.isDigit)
    let (minr, rest2) :=
      match rest1 with
      | '.' :: r =>
        if (r.head?.map (fun (ch : Char) => ch.isDigit)).getD false then
          (r.takeWhile (fun (ch : Char) => ch.isDigit), r.dropWhile (fun (ch : Char) => ch.isDigit))
        else (['0'], rest1)
      | _ => (['0'], rest1)
    let patc :=
      match rest2 with
      | '.' :: r =>
        if (r.head?.map (fun (ch : Char) => ch.isDigit)).getD false then
          r.takeWhile (fun (ch : Char) => ch.isDigit)
        else ['0']
      | _ => ['0']
    some (String.mk (maj ++ ('.' :: minr) ++ ('.' :: patc)))

/-- The string interpolation of a coerced version: JS renders the
`null` of a failed coercion as the string `"null"`. -/
def coerceTemplate (v : String) : String := (semverCoerce v).getD "null"

/-- Model of JS `toLowerCase()` as used for the ASCII mod identifiers
compared by this code. -/
def jsToLower (s : String) : String := String.mk (s.toList.map Char.toLower)

/-! ### The resolver: `mapDependencies` -/

/-- `mod.attributes?.smapiManifests?.[name]` — the stored manifest of an
installed mod under an exact (case-sensitive) manifest key. -/
def smapiManifestFor (m : Mod) (name : String) : Option StoredManifest :=
  m.smapiManifests.bind (fun l => (l.find? (fun p => p.1 == name)).map (·.2))

/-- The JS `Set` built from the truthy `UniqueID`s: insertion order,
first occurrence kept, dedup by EXACT string equality. -/
def jsSetDedup (l : List String) : List String :=
  l.foldl (fun acc s => if acc.contains s then acc else acc ++ [s]) []

/-- The truthy dependency ids, in declaration order
(`dependencies.filter(d => !!d.UniqueID).map(d => d.UniqueID)`). -/
def truthyIds (deps : List Dep) : List String :=
  (deps.filter (fun d => optStrTruthy d.UniqueID)).map (fun d => d.UniqueID.getD "")

/-- The deduplicated dependency list: for each id of the `Set`, the
first declaration whose `UniqueID` strictly equals it. -/
def filteredDependencies (deps : List Dep) : List Dep :=
  (jsSetDedup (truthyIds deps)).filterMap
    (fun cur => deps.find? (fun d => d.UniqueID == some cur))

/-- `depToFind.isRequired === true ? 'requires' : 'recommends'` —
strict equality with the boolean `true`. -/
def ruleTypeOf (v : JSVal) : String :=
  if v == JSVal.bool true then "requires" else "recommends"

/-- `MinimumVersion ? MinimumVersion + "^" : "*"` — the version
constraint string written on local and unresolved rules. -/
def minVersionStr (d : Dep) : String :=
  if optStrTruthy d.MinimumVersion then d.MinimumVersion.getD "" ++ "^" else "*"

/-- The first installed candidate accepted for a dependency: a mod whose
`smapiManifests` holds the dependency's id as an exact key and, when a
truthy `MinimumVersion` is declared, whose stored `Version` satisfies
`semver.satisfies(version, coerce(min) + "^")`. -/
def localMatchFor (mods : List Mod) (d : Dep) : Option Mod :=
  let depName := d.UniqueID.getD ""
  let candidates := mods.filter (fun m => (smapiManifestFor m depName).isSome)
  candidates.find? (fun m =>
    if ¬ optStrTruthy d.MinimumVersion then true
    else
      match (smapiManifestFor m depName).bind (·.Version) with
      | none => false
      | some v =>
        if v == "" then false
        else semverSatisfies v (coerceTemplate (d.MinimumVersion.getD "") ++ "^"))

/-- The rule emitted for a locally matched dependency. -/
def localRule (d : Dep) (m : Mod) : ModRule :=
  { type := ruleTypeOf d.isRequired,
    reference := { versionMatch := some (minVersionStr d),
                   description := d.UniqueID,
                   id := some m.id } }

/-- The local scan of the resolver: in declaration order, each
deduplicated dependency either yields a local rule or joins the missing
list sent to the remote catalog. -/
def localPhase (mods : List Mod) : List Dep → List ModRule × List Dep
  | [] => ([], [])
  | d :: rest =>
    let tail := localPhase mods rest
    match localMatchFor mods d with
    | some m => (localRule d m :: tail.1, tail.2)
    | none => (tail.1, d :: tail.2)

/-- The `Unresolved` rule shape, shared by the catalog-miss branch and
the catch branch: a synthesized `fileExpression` equal to the declared
`UniqueID` and the `minVersionStr` constraint. -/
def unresolvedRuleOf (d : Dep) : ModRule :=
  { type := ruleTypeOf d.isRequired,
    reference := { version := some (minVersionStr d),
                   fileExpression := d.UniqueID } }

/-- Mapping one missing dependency against the catalog response:
correlation by case-insensitive id; a hit yields a remote rule with a
download hint and `extra.required = isRequired || false`; a miss yields
the unresolved rule. -/
def remoteMapRule (smapiData : List CatalogEntry) (d : Dep) : ModRule :=
  match smapiData.find?
      (fun s => jsToLower s.id == jsToLower (d.UniqueID.getD "")) with
  | some s =>
    { type := ruleTypeOf d.isRequired,
      reference := { idHint := some s.id, description := some s.id,
                     instructions := some "Download the required version." },
      downloadHint := some
        { mode := "browse",
          url := if optStrTruthy s.mainUrl then s.mainUrl.getD ""
                 else "https://nexusmods.com/" ++ GAME_ID ++ "/mods/" },
      extra := some { required := d.isRequired.orFalse } }
  | none => unresolvedRuleOf d

/-- The outcome of the remote catalog call as observed by the resolver's
try block: the response data, or a thrown error. -/
abbrev RemoteOutcome := Except Unit (List CatalogEntry)

/-- `mapDependencies(api, mods, dependencies)`: dedup, local scan, then
the remote phase.  On success the remote rules are appended to the local
rules; the catch branch returns ONLY the unresolved mapping of the
missing dependencies. -/
def mapDependencies (mods : List Mod) (dependencies : List Dep)
    (remote : RemoteOutcome) : List ModRule :=
  let fdeps := filteredDependencies dependencies
  let phase := localPhase mods fdeps
  match remote with
  | .ok smapiData => phase.1 ++ phase.2.map (remoteMapRule smapiData)
  | .error _ => phase.2.map unresolvedRuleOf

/-! ### The reconciler: `modToggled`

`SMAPIManifestClass` copies field VALUES, not arrays: `parsed.Dependencies`
is `getManifestValue(raw, 'Dependencies') || []`, which ALIASES the stored
`Dependencies` array whenever the manifest has one (a JS array, even empty,
is truthy).  The reconciler then does `dependencies.push(...)` for a
content pack, so the push lands in the stored state.  The embedding makes
that aliasing explicit: the dependency list used for resolution and the
stored list after the call are computed by the same append. -/

/-- The dependency list the reconciler resolves for one manifest:
the parsed `Dependencies` (or `[]`), with the synthetic required
dependency on `ContentPackFor.UniqueID` appended when the manifest is a
content pack. -/
def toggleDependencies (m : StoredManifest) : List Dep :=
  let dependencies := m.Dependencies.getD []
  match m.ContentPackFor with
  | some cpf => dependencies ++ [{ UniqueID := cpf.UniqueID, isRequired := .bool true }]
  | none => dependencies

/-- The stored manifest after the reconciler has processed it: when the
manifest is a content pack AND its `Dependencies` array exists (so the
parsed list aliases it), the stored array has gained the synthetic
dependency; otherwise it is unchanged. -/
def manifestAfterToggle (m : StoredManifest) : StoredManifest :=
  match m.Dependencies, m.ContentPackFor with
  | some stored, some cpf =>
    let appended := stored ++ [{ UniqueID := cpf.UniqueID, isRequired := .bool true }]
    { m with Dependencies := some appended }
  | _, _ => m

/-- The reconciler's diff for one manifest, from the owner's ORIGINAL
rules (read once, before any dispatch): an existing rule is marked for
removal when some newly computed rule's `reference.id` strictly equals
the existing rule's `reference.fileExpression` (`undefined` on both
sides compares equal); the additions are all newly computed rules.
An empty computation short-circuits (`continue`). -/
def reconcileManifest (mods : List Mod) (origRules : List ModRule)
    (m : StoredManifest) (remote : RemoteOutcome) : List ModRule × List ModRule :=
  let mapped := mapDependencies mods (toggleDependencies m) remote
  if mapped.isEmpty then ([], [])
  else
    (origRules.filter (fun r =>
        (mapped.find? (fun mr => mr.reference.id == r.reference.fileExpression)).isSome),
     mapped)

/-- Modelled from the spec: the host's rule-store mutations
(`removeDependencyRule` then `addDependencyRule`, dispatched as two
batches, all removals before all additions; these reducers live in the
host `vortex-api`, not in this repository).  The removal batch deletes
the rules equal to its members; the addition batch appends. -/
def applyRuleBatches (rules : List ModRule) (toRemove toAdd : List ModRule) :
    List ModRule :=
  (rules.filter (fun r => ¬ toRemove.contains r)) ++ toAdd

/-- One run of `modToggled` for the mod `modId`: a no-op when the mod is
absent or has no stored manifests; otherwise every stored manifest is
processed in order — its diff is computed against the ORIGINAL rule
array (the source keeps reading the stale `mod.rules` object), the
batches are applied to the evolving store, and the stored manifest
suffers the content-pack aliasing mutation. -/
def modToggled (mods : List Mod) (modId : String) (remote : RemoteOutcome) :
    List Mod :=
  match mods.find? (fun m => m.id == modId) with
  | none => mods
  | some theMod =>
    match theMod.smapiManifests with
    | none => mods
    | some manifests =>
      if manifests.isEmpty then mods
      else
        let step := manifests.foldl
          (fun (acc : List ModRule × List (String × StoredManifest)) km =>
            let batches := reconcileManifest mods theMod.rules km.2 remote
            (applyRuleBatches acc.1 batches.1 batches.2,
             acc.2 ++ [(km.1, manifestAfterToggle km.2)]))
          (theMod.rules, [])
        mods.map (fun m =>
          if m.id == modId then
            { m with rules := step.1, smapiManifests := some step.2 }
          else m)

/-- The rule list stored for a mod id (what the persistent store holds). -/
def rulesOf (mods : List Mod) (modId : String) : List ModRule :=
  ((mods.find? (fun m => m.id == modId)).map (fun m => m.rules)).getD []

/-- The stored manifest mapping of a mod id. -/
def manifestsOf (mods : List Mod) (modId : String) :
    Option (List (String × StoredManifest)) :=
  (mods.find? (fun m => m.id == modId)).bind (fun m => m.smapiManifests)

/-! ### The remote catalog client: `SMAPI_API.sendQuery` / `fetchModInfo`

The client's environment is passed explicitly: the result of
`getGameVersion()` (which throws when the game or its version is
unknown), `process.platform`, and the transport `post` as a function
from the request to a response or a thrown error. -/

/-- One identity of the batched request (`IAPIModIdentity`). -/
structure APIModIdentity where
  id : String
  installedVersion : Option String := none
  updateKeys : List String := []
deriving DecidableEq, Repr

/-- The batched POST body (`IAPIPostRequest`). -/
structure APIPostRequest where
  mods : List APIModIdentity
  apiVersion : String
  gameVersion : String
  platform : String
  includeExtendedMetadata : Option Bool
deriving DecidableEq, Repr

/-- `process.platform === 'win32' ? 'Windows' : ... 'Linux' : 'Mac'`. -/
def platformTag (p : String) : String :=
  if p == "win32" then "Windows" else if p == "linux" then "Linux" else "Mac"

/-- The request `sendQuery` builds for a batch. -/
def smapiRequest (mods : List APIModIdentity) (includeMeta : Option Bool)
    (gameVersion platform : String) : APIPostRequest :=
  { mods := mods, apiVersion := "3.0", gameVersion := gameVersion,
    platform := platformTag platform, includeExtendedMetadata := includeMeta }

/-- `sendQuery` with an observable network flag: the whole body sits in
one try/catch; the game-version lookup runs first (its failure skips the
network call), then the POST fires — also for an empty batch; any thrown
error is caught and becomes an empty result list.  The second component
records whether the POST was invoked. -/
def sendQueryT (getGameVersion : Except Unit String) (platform : String)
    (post : APIPostRequest → Except Unit (List CatalogEntry))
    (mods : List APIModIdentity) (includeMeta : Option Bool) :
    List CatalogEntry × Bool :=
  match getGameVersion with
  | .error _ => ([], false)
  | .ok gameVersion =>
    match post (smapiRequest mods includeMeta gameVersion platform) with
    | .ok res => (res, true)
    | .error _ => ([], true)

/-- `sendQuery`'s return value: the caught-and-converted result list. -/
def sendQuery (getGameVersion : Except Unit String) (platform : String)
    (post : APIPostRequest → Except Unit (List CatalogEntry))
    (mods : List APIModIdentity) (includeMeta : Option Bool) :
    List CatalogEntry :=
  (sendQueryT getGameVersion platform post mods includeMeta).1

/-- One step of `fetchModInfo`'s reduce: a mod with absent or empty
`attributes.modData` contributes nothing; otherwise each entry becomes
an identity, with nexus update keys when the mod has a truthy `modId`
and source `'nexus'`. -/
def fetchModInfoStep (prev : List APIModIdentity) (cur : Mod) :
    List APIModIdentity :=
  match cur.modData with
  | none => prev
  | some ids =>
    if ids.length == 0 then prev
    else prev ++ ids.map (fun m =>
      { id := m.id, installedVersion := m.version,
        updateKeys :=
          if optStrTruthy cur.modId && cur.source == some "nexus"
          then ["nexus:" ++ cur.modId.getD ""] else [] })

/-- The identity batch `fetchModInfo` derives from the mods to check. -/
def fetchModInfoBatch (modsToCheck : List Mod) : List APIModIdentity :=
  modsToCheck.foldl fetchModInfoStep []

/-- `fetchModInfo` with the network flag: an empty derived batch returns
an empty sequence WITHOUT reaching `sendQuery`; otherwise it defers to
`sendQueryT`.  (The `modsToCheck` default of `getAllMods()` is passed
explicitly as the list.) -/
def fetchModInfoT (getGameVersion : Except Unit String) (platform : String)
    (post : APIPostRequest → Except Unit (List CatalogEntry))
    (includeMeta : Option Bool) (modsToCheck : List Mod) :
    List CatalogEntry × Bool :=
  let mods := fetchModInfoBatch modsToCheck
  if mods.length == 0 then ([], false)
  else sendQueryT getGameVersion platform post mods includeMeta

/-! ### The manifest normaliser: `normaliseDependencies` (SMAPI_API.ts) -/

/-- A raw dependency entry as `normaliseDependencies` receives it; each
field holds what `getManifestValue` finds for the recognised key
(case-insensitive lookup), `undefined` when absent. -/
structure RawDep where
  UniqueID : JSVal := .undef
  MinimumVersion : JSVal := .undef
  isRequired : JSVal := .undef
deriving DecidableEq, Repr

/-- The normalised record.  `MinimumVersion = none` means the key is
absent from the result object; `some v` means the key was assigned the
value `v`. -/
structure NormalisedDep where
  UniqueID : JSVal
  isRequired : JSVal
  MinimumVersion : Option JSVal := none
deriving DecidableEq, Repr

/-- `normaliseDependencies(input)`: reads the three recognised fields,
defaults `isRequired` with `|| false`, drops the entry (`undefined`)
when `UniqueID` is falsy, and — exactly as the source's inverted guard
`if (!MinimumVersion)` does — assigns the `MinimumVersion` key only when
the looked-up value is FALSY. -/
def normaliseDependencies (input : RawDep) : Option NormalisedDep :=
  let UniqueID := input.UniqueID
  let MinimumVersion := input.MinimumVersion
  let isRequired := input.isRequired.orFalse
  if ¬ UniqueID.truthy then none
  else
    some { UniqueID := UniqueID, isRequired := isRequired,
           MinimumVersion :=
             if ¬ MinimumVersion.truthy then some MinimumVersion else none }

/-! ### Helper lemmas -/

/-- Membership in the JS `Set` projection: every kept id occurs in the
input list. -/
theorem mem_jsSetDedup {x : String} {l : List String} (h : x ∈ jsSetDedup l) :
    x ∈ l := by
  suffices H : ∀ (l : List String) (acc : List String),
      x ∈ l.foldl (fun acc s => if acc.contains s then acc else acc ++ [s]) acc →
      x ∈ acc ∨ x ∈ l by
    rcases H l [] h with h' | h'
    · simp at h'
    · exact h'
  intro l
  induction l with
  | nil => intro acc h; exact Or.inl h
  | cons s rest ih =>
    intro acc h
    simp only [List.foldl_cons] at h
    rcases ih _ h with h' | h'
    · by_cases hc : acc.contains s = true
      · rw [if_pos hc] at h'
        exact Or.inl h'
      · rw [if_neg hc] at h'
        rcases List.mem_append.mp h' with h'' | h''
        · exact Or.inl h''
        · simp only [List.mem_singleton] at h''
          exact Or.inr (by simp [h''])
    · exact Or.inr (List.mem_cons_of_mem _ h')

/-- A filterMap whose function succeeds on every element keeps the
length. -/
theorem length_filterMap_of_isSome {α β : Type} (f : α → Option β) :
    ∀ l : List α, (∀ x ∈ l, (f x).isSome) → (l.filterMap f).length = l.length := by
  intro l
  induction l with
  | nil => intro _; rfl
  | cons a rest ih =>
    intro h
    have ha : (f a).isSome := h a (List.mem_cons_self a rest)
    rcases Option.isSome_iff_exists.mp ha with ⟨b, hb⟩
    simp [List.filterMap_cons, hb,
      ih (fun x hx => h x (List.mem_cons_of_mem _ hx))]

/-- Every id kept by the `Set` belongs to some declaration, so the
per-id `find?` of the dedup stage always succeeds. -/
theorem find?_of_mem_truthyIds {deps : List Dep} {cur : String}
    (h : cur ∈ jsSetDedup (truthyIds deps)) :
    (deps.find? (fun d => d.UniqueID == some cur)).isSome := by
  have hmem : cur ∈ truthyIds deps := mem_jsSetDedup h
  simp only [truthyIds, List.mem_map, List.mem_filter] at hmem
  rcases hmem with ⟨d, ⟨hd, htr⟩, heq⟩
  cases hu : d.UniqueID with
  | none => rw [hu] at htr; simp [optStrTruthy] at htr
  | some s =>
    rw [hu] at heq
    simp only [Option.getD_some] at heq
    refine List.find?_isSome.mpr ⟨d, hd, ?_⟩
    simp [hu, heq]

/-- The dedup stage emits exactly one declaration per distinct truthy
id. -/
theorem length_filteredDependencies (deps : List Dep) :
    (filteredDependencies deps).length = (jsSetDedup (truthyIds deps)).length := by
  unfold filteredDependencies
  exact length_filterMap_of_isSome _ _ (fun cur hc => find?_of_mem_truthyIds hc)

/-- The local scan conserves dependencies: local rules plus missing
declarations account for every deduplicated declaration. -/
theorem localPhase_length (mods : List Mod) :
    ∀ l : List Dep,
      (localPhase mods l).1.length + (localPhase mods l).2.length = l.length := by
  intro l
  induction l with
  | nil => rfl
  | cons d rest ih =>
    cases h : localMatchFor mods d with
    | none => simp [localPhase, h]; omega
    | some m => simp [localPhase, h]; omega


/-- An identity-preserving per-mod rewrite commutes with finding a mod
by id. -/
theorem find?_map_id_preserving (modId : String) (f : Mod → Mod)
    (hf : ∀ m, (f m).id = m.id) :
    ∀ mods : List Mod,
      (mods.map f).find? (fun m => m.id == modId) =
        (mods.find? (fun m => m.id == modId)).map f := by
  intro mods
  induction mods with
  | nil => rfl
  | cons m rest ih =>
    simp only [List.map_cons, List.find?_cons]
    by_cases h : (m.id == modId) = true
    · simp [hf, h]
    · simp [hf, h, ih]

/-- An empty removal batch leaves the store intact: applying batches
with no removals appends the additions. -/
theorem applyRuleBatches_nil_remove (rules toAdd : List ModRule) :
    applyRuleBatches rules [] toAdd = rules ++ toAdd := by
  simp [applyRuleBatches]

/-- Mods that all contribute nothing leave the reduce accumulator
unchanged. -/
theorem foldl_fetchModInfoStep_nil :
    ∀ (l : List Mod) (acc : List APIModIdentity),
      (∀ m ∈ l, m.modData = none ∨ m.modData = some []) →
      l.foldl fetchModInfoStep acc = acc := by
  intro l
  induction l with
  | nil => intro acc _; rfl
  | cons m rest ih =>
    intro acc h
    have hm := h m (List.mem_cons_self m rest)
    have hstep : fetchModInfoStep acc m = acc := by
      rcases hm with hm | hm <;> simp [fetchModInfoStep, hm]
    simp only [List.foldl_cons, hstep]
    exact ih acc (fun x hx => h x (List.mem_cons_of_mem _ hx))

/-- The rule-type ternary emits `requires` exactly at the boolean
`true`. -/
theorem ruleTypeOf_eq_requires_iff (v : JSVal) :
    ruleTypeOf v = "requires" ↔ v = JSVal.bool true := by
  by_cases h : v = JSVal.bool true
  · simp [ruleTypeOf, h]
  · simp only [ruleTypeOf, beq_iff_eq, if_neg h]
    constructor
    · intro hh; exact absurd hh (by decide)
    · intro hh; exact absurd hh h

/-! ### Claim theorems -/

/-- C1 (counterexample): on the remote-catalog-failure path the resolver
does NOT return one rule per distinct declared dependency — the catch
branch returns only the unresolved mapping of the locally-unsatisfied
dependencies and discards the local rules.  With dependency `B`
satisfied by installed mod `b` and dependency `C` unsatisfied, the
failure path returns 1 rule although there are 2 distinct
dependencies. -/
theorem c1_failure_path_drops_local_rules :
    (mapDependencies
      [{ id := "b", smapiManifests := some [("B", { Version := some "1.0.0" })] }]
      [{ UniqueID := some "B", isRequired := JSVal.bool true },
       { UniqueID := some "C" }]
      (.error ())).length = 1 ∧
    (jsSetDedup (truthyIds
      [{ UniqueID := some "B", isRequired := JSVal.bool true },
       { UniqueID := some "C" }])).length = 2 := by
  constructor
  · decide
  · decide

/-- C1 (amended): dependency resolution never throws and, on the
success path, returns exactly one rule per distinct declared dependency
(locally-satisfied included); on the remote-catalog-failure path it
returns exactly one unresolved rule per dependency that was sent to the
remote catalog (the locally-satisfied dependencies yield no rule
there). -/
theorem c1_resolution_rule_count (mods : List Mod) (deps : List Dep) :
    (∀ data : List CatalogEntry,
      (mapDependencies mods deps (.ok data)).length =
        (jsSetDedup (truthyIds deps)).length) ∧
    (mapDependencies mods deps (.error ())).length =
      (localPhase mods (filteredDependencies deps)).2.length := by
  constructor
  · intro data
    have h1 := localPhase_length mods (filteredDependencies deps)
    have h2 := length_filteredDependencies deps
    simp only [mapDependencies, List.length_append, List.length_map]
    omega
  · simp only [mapDependencies, List.length_map]

/-- C2 (counterexample): uniqueIds differing only in letter case are NOT
deduplicated — the `Set` keying is exact — so the spec's example input
resolves to TWO rules, a `recommends` for `Foo.Mod` and a `requires`
for `foo.mod`, not to a single `recommends` rule. -/
theorem c2_case_variant_ids_both_resolved :
    (mapDependencies []
      [{ UniqueID := some "Foo.Mod", isRequired := JSVal.bool false },
       { UniqueID := some "foo.mod", isRequired := JSVal.bool true }]
      (.ok [])).map (fun r => r.type) = ["recommends", "requires"] := by
  decide

/-- C2 (amended): deduplication is by exact (case-sensitive) uniqueId
with the first occurrence winning: two declarations with strictly equal
uniqueIds collapse to the first, while declarations whose uniqueIds
differ (even only in case) are both kept and each yields its own
rule. -/
theorem c2_dedup_exact_case_first_wins (d1 d2 : Dep)
    (h1 : optStrTruthy d1.UniqueID = true)
    (h2 : optStrTruthy d2.UniqueID = true) :
    (d1.UniqueID = d2.UniqueID → filteredDependencies [d1, d2] = [d1]) ∧
    (d1.UniqueID ≠ d2.UniqueID → filteredDependencies [d1, d2] = [d1, d2]) := by
  cases hu1 : d1.UniqueID with
  | none => rw [hu1] at h1; simp [optStrTruthy] at h1
  | some s1 =>
    cases hu2 : d2.UniqueID with
    | none => rw [hu2] at h2; simp [optStrTruthy] at h2
    | some s2 =>
      rw [hu1] at h1; rw [hu2] at h2
      constructor
      · intro heq
        have hs : s1 = s2 := by injection heq
        subst hs
        have hs1 : ¬ s1 = "" := by simpa [optStrTruthy] using h1
        simp [filteredDependencies, truthyIds, jsSetDedup, List.filter,
          optStrTruthy, hs1, hu1, hu2, List.find?]
      · intro hne
        have hs : ¬ s1 = s2 := fun h => hne (by rw [h])
        have hs1 : ¬ s1 = "" := by simpa [optStrTruthy] using h1
        have hs2 : ¬ s2 = "" := by simpa [optStrTruthy] using h2
        have hb : (s1 == s2) = false := by simp [hs]
        simp [filteredDependencies, truthyIds, jsSetDedup, List.filter,
          optStrTruthy, hs1, hs2, hu1, hu2, List.find?, hs, Ne.symm hs, hb]

/-- C2 (witness for the amended theorem): exact duplicates collapse to
the first declaration; case-variant ids are both kept. -/
theorem c2_dedup_exact_case_first_wins_witness :
    (filteredDependencies
      [{ UniqueID := some "Foo.Mod", isRequired := JSVal.bool false },
       { UniqueID := some "Foo.Mod", isRequired := JSVal.bool true }] =
      [{ UniqueID := some "Foo.Mod", isRequired := JSVal.bool false }]) ∧
    (filteredDependencies
      [{ UniqueID := some "Foo.Mod", isRequired := JSVal.bool false },
       { UniqueID := some "foo.mod", isRequired := JSVal.bool true }] =
      [{ UniqueID := some "Foo.Mod", isRequired := JSVal.bool false },
       { UniqueID := some "foo.mod", isRequired := JSVal.bool true }]) := by
  constructor
  · exact (c2_dedup_exact_case_first_wins _ _ (by decide) (by decide)).1 rfl
  · exact (c2_dedup_exact_case_first_wins _ _ (by decide) (by decide)).2 (by decide)

/-- C3 (code bug, evaluation at the failing input): the resolver builds
the range string by appending the caret AFTER the coerced minimum
(`"1.0.0^"`), which is not a valid semver range, so `satisfies` is
false for every candidate: an installed manifest with Version `1.2.0`
does NOT locally satisfy a dependency with minimumVersion `1.0.0` — the
dependency falls through to remote resolution and (absent from the
catalog) ends as an unresolved rule. -/
theorem c3_declared_minimum_never_matches_locally :
    semverSatisfies "1.2.0" (coerceTemplate "1.0.0" ++ "^") = false ∧
    semverSatisfies "1.2.0" "^1.0.0" = true ∧
    localMatchFor
      [{ id := "b", smapiManifests := some [("B", { Version := some "1.2.0" })] }]
      { UniqueID := some "B", MinimumVersion := some "1.0.0" } = none ∧
    mapDependencies
      [{ id := "b", smapiManifests := some [("B", { Version := some "1.2.0" })] }]
      [{ UniqueID := some "B", MinimumVersion := some "1.0.0" }]
      (.ok []) =
      [{ type := "recommends",
         reference := { version := some "1.0.0^", fileExpression := some "B" } }] := by
  refine ⟨by decide, by decide, by decide, by decide⟩

/-- C4 (counterexample): running the reconciler twice for the same mod
against an unchanged installed-mod set and identical remote responses
does NOT reproduce the same rule set.  With one locally-satisfied
dependency, the first run stores one local rule; the second run's diff
compares the computed rule's `reference.id` with the stored rule's
`reference.fileExpression` (absent on local rules), removes nothing, and
appends the same rule again — and its removal batch is empty although
the first run added a rule. -/
theorem c4_second_run_diff_misses_added_rules :
    (rulesOf (modToggled
      [{ id := "a",
         smapiManifests := some [("p",
           { Dependencies :=
               some [{ UniqueID := some "B", isRequired := JSVal.bool true }] })] },
       { id := "b", smapiManifests := some [("B", { Version := some "1.0.0" })] }]
      "a" (.ok [])) "a").length = 1 ∧
    (rulesOf (modToggled (modToggled
      [{ id := "a",
         smapiManifests := some [("p",
           { Dependencies :=
               some [{ UniqueID := some "B", isRequired := JSVal.bool true }] })] },
       { id := "b", smapiManifests := some [("B", { Version := some "1.0.0" })] }]
      "a" (.ok [])) "a" (.ok [])) "a").length = 2 ∧
    (reconcileManifest
      (modToggled
        [{ id := "a",
           smapiManifests := some [("p",
             { Dependencies :=
                 some [{ UniqueID := some "B", isRequired := JSVal.bool true }] })] },
         { id := "b", smapiManifests := some [("B", { Version := some "1.0.0" })] }]
        "a" (.ok []))
      (rulesOf (modToggled
        [{ id := "a",
           smapiManifests := some [("p",
             { Dependencies :=
                 some [{ UniqueID := some "B", isRequired := JSVal.bool true }] })] },
         { id := "b", smapiManifests := some [("B", { Version := some "1.0.0" })] }]
        "a" (.ok [])) "a")
      { Dependencies := some [{ UniqueID := some "B", isRequired := JSVal.bool true }] }
      (.ok [])).1 = [] := by
  refine ⟨by decide, by decide, by decide⟩

/-- C4 (amended): one reconciler run for a single-manifest mod removes
exactly the stored rules whose `reference.fileExpression` equals some
recomputed rule's `reference.id`; when no stored rule matches (as for
every rule the previous run itself added, since local rules carry an id
but no fileExpression and remote/unresolved rules carry no id), nothing
is removed and the recomputed rules are appended after the stored ones,
so re-running accumulates duplicates instead of reproducing the same
rule set. -/
theorem c4_rerun_appends_without_removal (mods : List Mod) (modId : String)
    (remote : RemoteOutcome) (theMod : Mod) (k : String) (m : StoredManifest)
    (hfind : mods.find? (fun x => x.id == modId) = some theMod)
    (hman : theMod.smapiManifests = some [(k, m)])
    (hne : mapDependencies mods (toggleDependencies m) remote ≠ [])
    (hmiss : ∀ r ∈ theMod.rules,
      ∀ mr ∈ mapDependencies mods (toggleDependencies m) remote,
        mr.reference.id ≠ r.reference.fileExpression) :
    rulesOf (modToggled mods modId remote) modId =
      theMod.rules ++ mapDependencies mods (toggleDependencies m) remote := by
  have hMempty :
      (mapDependencies mods (toggleDependencies m) remote).isEmpty = false := by
    cases hM : mapDependencies mods (toggleDependencies m) remote with
    | nil => exact absurd hM hne
    | cons a l => rfl
  have hremove :
      (reconcileManifest mods theMod.rules m remote).1 = [] := by
    simp only [reconcileManifest, hMempty, Bool.false_eq_true, if_false]
    refine List.filter_eq_nil_iff.mpr ?_
    intro r hr
    have hnone :
        (mapDependencies mods (toggleDependencies m) remote).find?
          (fun mr => mr.reference.id == r.reference.fileExpression) = none := by
      refine List.find?_eq_none.mpr ?_
      intro mr hmr
      simpa using hmiss r hr mr hmr
    simp [hnone]
  have hadd :
      (reconcileManifest mods theMod.rules m remote).2 =
        mapDependencies mods (toggleDependencies m) remote := by
    simp [reconcileManifest, hMempty]
  have hid := List.find?_some hfind
  simp only [modToggled, hfind, hman, List.isEmpty_cons, Bool.false_eq_true,
    if_false, List.foldl_cons, List.foldl_nil, hremove, hadd,
    applyRuleBatches_nil_remove, rulesOf]
  rw [find?_map_id_preserving modId _
    (fun x => by by_cases hx : (x.id == modId) = true <;> simp [hx]) mods, hfind]
  have heq : theMod.id = modId := by simpa using hid
  simp [heq]

/-- C4 (witness for the amended theorem): a first run over a mod with no
stored rules appends exactly the recomputed rules. -/
theorem c4_rerun_appends_without_removal_witness :
    rulesOf (modToggled
      [{ id := "a",
         smapiManifests := some [("p",
           { Dependencies :=
               some [{ UniqueID := some "B", isRequired := JSVal.bool true }] })] },
       { id := "b", smapiManifests := some [("B", { Version := some "1.0.0" })] }]
      "a" (.ok [])) "a" =
      [] ++ mapDependencies
        [{ id := "a",
           smapiManifests := some [("p",
             { Dependencies :=
                 some [{ UniqueID := some "B", isRequired := JSVal.bool true }] })] },
         { id := "b", smapiManifests := some [("B", { Version := some "1.0.0" })] }]
        (toggleDependencies
          { Dependencies :=
              some [{ UniqueID := some "B", isRequired := JSVal.bool true }] })
        (.ok []) := by
  exact c4_rerun_appends_without_removal
    [{ id := "a",
       smapiManifests := some [("p",
         { Dependencies :=
             some [{ UniqueID := some "B", isRequired := JSVal.bool true }] })] },
     { id := "b", smapiManifests := some [("B", { Version := some "1.0.0" })] }]
    "a" (.ok [])
    { id := "a",
      smapiManifests := some [("p",
        { Dependencies :=
            some [{ UniqueID := some "B", isRequired := JSVal.bool true }] })] }
    "p"
    { Dependencies := some [{ UniqueID := some "B", isRequired := JSVal.bool true }] }
    (by decide) rfl (by decide) (by simp)

/-- C5 (code bug, evaluation at the failing input): the reconciler
mutates shared state.  `SMAPIManifestClass` aliases the stored
`Dependencies` array, and for a content-pack manifest the reconciler
pushes the synthetic dependency into it, so after `modToggled` the
toggled mod's stored `smapiManifests` attribute differs from before —
the claim that the installed-mods mapping is left unchanged fails. -/
theorem c5_content_pack_toggle_mutates_stored_manifest :
    manifestsOf (modToggled
      [{ id := "a",
         smapiManifests := some [("p",
           { Dependencies := some [],
             ContentPackFor := some { UniqueID := some "C" } })] }]
      "a" (.ok [])) "a" =
      some [("p",
        { Dependencies :=
            some [{ UniqueID := some "C", isRequired := JSVal.bool true }],
          ContentPackFor := some { UniqueID := some "C" } })] ∧
    manifestsOf (modToggled
      [{ id := "a",
         smapiManifests := some [("p",
           { Dependencies := some [],
             ContentPackFor := some { UniqueID := some "C" } })] }]
      "a" (.ok [])) "a" ≠
      manifestsOf
        [{ id := "a",
           smapiManifests := some [("p",
             { Dependencies := some [],
               ContentPackFor := some { UniqueID := some "C" } })] }] "a" := by
  refine ⟨by decide, by decide⟩

/-- C6: `sendQuery` never raises past its boundary — a failed
game-version lookup (the POST is then never reached) and a failed
transport call are both caught and converted into an empty result
sequence, for every batch and flag value. -/
theorem c6_sendquery_converts_failures_to_empty (platform : String)
    (post : APIPostRequest → Except Unit (List CatalogEntry))
    (mods : List APIModIdentity) (includeMeta : Option Bool) (gv : String) :
    sendQuery (.error ()) platform post mods includeMeta = [] ∧
    (post (smapiRequest mods includeMeta gv platform) = .error () →
      sendQuery (.ok gv) platform post mods includeMeta = []) := by
  constructor
  · rfl
  · intro h
    simp [sendQuery, sendQueryT, h]

/-- C6 (witness): both failure modes at concrete inputs yield the empty
result sequence. -/
theorem c6_sendquery_converts_failures_to_empty_witness :
    sendQuery (.error ()) "win32" (fun _ => .error ()) [] none = [] ∧
    sendQuery (.ok "1.5.6") "win32" (fun _ => .error ())
      [{ id := "Pathoschild.ContentPatcher" }] (some true) = [] := by
  refine ⟨(c6_sendquery_converts_failures_to_empty "win32"
      (fun _ => .error ()) [] none "1.5.6").1, ?_⟩
  exact (c6_sendquery_converts_failures_to_empty "win32" (fun _ => .error ())
      [{ id := "Pathoschild.ContentPatcher" }] (some true) "1.5.6").2 rfl

/-- C7 (counterexample): `sendQuery` itself performs the network call
even when the identity batch is empty — with a successful game-version
lookup the POST fires on the empty batch, contradicting the claim that
the query returns without any network call. -/
theorem c7_sendquery_empty_batch_still_posts :
    (sendQueryT (.ok "1.5.6") "win32" (fun _ => .ok []) [] (some true)).2 = true :=
  rfl

/-- C7 (amended): the empty-batch short-circuit lives in `fetchModInfo`,
not in `sendQuery`: when every mod to check has an absent or empty
`modData` attribute, the derived identity batch is empty and
`fetchModInfo` returns an empty sequence without invoking `sendQuery`
(no network call); `sendQuery` invoked directly posts even an empty
batch. -/
theorem c7_fetchmodinfo_empty_batch_no_network (gv : Except Unit String)
    (platform : String) (post : APIPostRequest → Except Unit (List CatalogEntry))
    (includeMeta : Option Bool) (modsToCheck : List Mod)
    (h : ∀ m ∈ modsToCheck, m.modData = none ∨ m.modData = some []) :
    fetchModInfoT gv platform post includeMeta modsToCheck = ([], false) := by
  have hb : fetchModInfoBatch modsToCheck = [] :=
    foldl_fetchModInfoStep_nil modsToCheck [] h
  simp [fetchModInfoT, hb]

/-- C7 (witness for the amended theorem): two mods without usable
`modData` yield an empty result with no network call, even under a
server that would answer. -/
theorem c7_fetchmodinfo_empty_batch_no_network_witness :
    fetchModInfoT (.ok "1.5.6") "win32" (fun _ => .ok [{ id := "X" }])
      (some true) [{ id := "a" }, { id := "b", modData := some [] }] =
      ([], false) := by
  exact c7_fetchmodinfo_empty_batch_no_network (.ok "1.5.6") "win32"
    (fun _ => .ok [{ id := "X" }]) (some true)
    [{ id := "a" }, { id := "b", modData := some [] }] (by decide)

/-- C8: a dependency with no local match and absent from the catalog
response yields a rule whose synthesized `fileExpression` equals the
declared `uniqueId` character-for-character and whose version constraint
string is the declared minimum followed by a caret, or `"*"` when no
minimum was declared (an empty-string minimum counts as undeclared by JS
truthiness and is excluded here). -/
theorem c8_unresolved_rule_synthesis (mods : List Mod) (deps : List Dep)
    (data : List CatalogEntry) (d : Dep)
    (hmiss : d ∈ (localPhase mods (filteredDependencies deps)).2)
    (hnone : data.find?
      (fun s => jsToLower s.id == jsToLower (d.UniqueID.getD "")) = none)
    (hmv : d.MinimumVersion ≠ some "") :
    ∃ r ∈ mapDependencies mods deps (.ok data),
      r.reference.fileExpression = d.UniqueID ∧
      r.reference.version =
        some (match d.MinimumVersion with
              | some v => v ++ "^"
              | none => "*") := by
  refine ⟨remoteMapRule data d, ?_, ?_, ?_⟩
  · simp only [mapDependencies]
    exact List.mem_append_right _ (List.mem_map_of_mem _ hmiss)
  · simp [remoteMapRule, hnone, unresolvedRuleOf]
  · simp only [remoteMapRule, hnone, unresolvedRuleOf]
    cases hm : d.MinimumVersion with
    | none => simp [minVersionStr, hm, optStrTruthy]
    | some v =>
      have hv : ¬ v = "" := fun hv0 => hmv (by rw [hm, hv0])
      simp [minVersionStr, hm, optStrTruthy, hv]

/-- C8 (witness): a dependency on `Foo.Mod` with minimum `1.0.0`, no
installed candidates and an empty catalog response produces the
unresolved rule `fileExpression = "Foo.Mod"`, `version = "1.0.0^"`. -/
theorem c8_unresolved_rule_synthesis_witness :
    ∃ r ∈ mapDependencies []
        [{ UniqueID := some "Foo.Mod", MinimumVersion := some "1.0.0" }]
        (.ok []),
      r.reference.fileExpression = some "Foo.Mod" ∧
      r.reference.version = some "1.0.0^" := by
  have h := c8_unresolved_rule_synthesis []
    [{ UniqueID := some "Foo.Mod", MinimumVersion := some "1.0.0" }] []
    { UniqueID := some "Foo.Mod", MinimumVersion := some "1.0.0" }
    (by decide) rfl (by decide)
  simpa using h

/-- C9 (code bug, evaluation at the failing input): the normaliser's
guard `if (!MinimumVersion)` is inverted — a DECLARED minimum version is
dropped from the result while an absent one is stored as `undefined`;
the other claim parts hold: `isRequired` defaults to `false` and a
missing `UniqueID` drops the whole entry. -/
theorem c9_normalise_minimum_version_inverted :
    normaliseDependencies
      { UniqueID := .str "B", MinimumVersion := .str "1.0.0" } =
      some { UniqueID := .str "B", isRequired := .bool false,
             MinimumVersion := none } ∧
    normaliseDependencies { UniqueID := .str "B" } =
      some { UniqueID := .str "B", isRequired := .bool false,
             MinimumVersion := some .undef } ∧
    normaliseDependencies
      { MinimumVersion := .str "1.0.0", isRequired := .bool true } = none := by
  refine ⟨rfl, rfl, rfl⟩

/-- C10: an emitted rule's type is `requires` exactly when the
declaration's `isRequired` is the boolean `true` (strict equality, in
all three rule shapes), while the remote-branch `extra.required` is the
truthiness-based `isRequired || false`; hence for a truthy non-boolean
`isRequired` the type is `recommends` while `extra.required` holds the
original truthy value. -/
theorem c10_rule_type_strict_equality_vs_truthy_extra
    (data : List CatalogEntry) (d : Dep) (m : Mod) (e : CatalogEntry)
    (hfind : data.find?
      (fun s => jsToLower s.id == jsToLower (d.UniqueID.getD "")) = some e) :
    ((localRule d m).type = "requires" ↔ d.isRequired = JSVal.bool true) ∧
    ((unresolvedRuleOf d).type = "requires" ↔ d.isRequired = JSVal.bool true) ∧
    ((remoteMapRule data d).type = "requires" ↔ d.isRequired = JSVal.bool true) ∧
    (remoteMapRule data d).extra = some { required := d.isRequired.orFalse } ∧
    (d.isRequired.truthy = true → d.isRequired ≠ JSVal.bool true →
      (remoteMapRule data d).type = "recommends" ∧
      (remoteMapRule data d).extra = some { required := d.isRequired }) := by
  refine ⟨ruleTypeOf_eq_requires_iff d.isRequired,
    ruleTypeOf_eq_requires_iff d.isRequired, ?_, ?_, ?_⟩
  · simp only [remoteMapRule, hfind]
    exact ruleTypeOf_eq_requires_iff d.isRequired
  · simp [remoteMapRule, hfind]
  · intro htr hne
    constructor
    · simp only [remoteMapRule, hfind, ruleTypeOf, beq_iff_eq, if_neg hne]
    · simp [remoteMapRule, hfind, JSVal.orFalse, htr]

/-- C10 (witness): with `isRequired` the truthy string `"true"` and a
catalog hit, the emitted remote rule's type is `recommends` while its
`extra.required` carries the truthy string. -/
theorem c10_rule_type_strict_equality_vs_truthy_extra_witness :
    (remoteMapRule [{ id := "Foo.Mod" }]
      { UniqueID := some "Foo.Mod", isRequired := .str "true" }).type =
        "recommends" ∧
    (remoteMapRule [{ id := "Foo.Mod" }]
      { UniqueID := some "Foo.Mod", isRequired := .str "true" }).extra =
        some { required := JSVal.str "true" } := by
  have h := c10_rule_type_strict_equality_vs_truthy_extra [{ id := "Foo.Mod" }]
    { UniqueID := some "Foo.Mod", isRequired := .str "true" }
    { id := "m" } { id := "Foo.Mod" } (by decide)
  exact h.2.2.2.2 (by decide) (by decide)

end SDV
